import Mathlib

/-!
Verification of the two-stage insurance-claim extraction/adjudication
pipeline (`app_ins.py`): a shallow embedding of its pure logic
(date normalization, schema registry, per-page extraction, per-file
pipeline, category summarization, adjudication control flow) with the
external collaborators (PDF rasterizer, image opener, the inference
service together with the stdlib JSON decoding of its free-form text
reply) modelled as oracle parameters.
-/

namespace AppIns

/-! ### Python string helpers (`str.strip`, `str.lower`, `str.replace`, `str.endswith`) -/

/-- Characters stripped by Python's `str.strip()` (ASCII whitespace). -/
def isPySpace (c : Char) : Bool :=
  c = ' ' || c = '\t' || c = '\n' || c = '\x0d' || c = '\x0b' || c = '\x0c'

/-- ASCII lower-casing of a single character, as `str.lower()` does per char. -/
def lowerChar (c : Char) : Char :=
  if 'A' ≤ c ∧ c ≤ 'Z' then Char.ofNat (c.toNat + 32) else c

/-- `str.strip()`: remove leading and trailing whitespace. -/
def pyStrip (s : String) : String :=
  ⟨((s.data.dropWhile isPySpace).reverse.dropWhile isPySpace).reverse⟩

/-- `str.lower()` (ASCII). -/
def pyLower (s : String) : String := ⟨s.data.map lowerChar⟩

/-- Fuel-driven core of `str.replace`: replace non-overlapping occurrences of
`pat` left to right. The fuel starts at the length of the subject string,
which is always sufficient when `pat` is non-empty. -/
def pyReplaceAux (pat repl : List Char) : Nat → List Char → List Char
  | _, [] => []
  | 0, s => s
  | Nat.succ fuel, c :: rest =>
    if pat.isPrefixOf (c :: rest) then
      repl ++ pyReplaceAux pat repl fuel (List.drop (pat.length - 1) rest)
    else
      c :: pyReplaceAux pat repl fuel rest

/-- Python `s.replace(pat, repl)` for a non-empty `pat` (the only way the
source uses it); with an empty `pat` the subject is returned unchanged. -/
def pyReplace (s pat repl : String) : String :=
  if pat.data.isEmpty then s else ⟨pyReplaceAux pat.data repl.data s.data.length s.data⟩

/-- Python `s.endswith(suffix)`. -/
def strEndsWith (s suffix : String) : Bool := List.isSuffixOf suffix.data s.data

/-! ### Dates and `datetime.strptime` for the formats the source uses

Python's `strptime` is regex-based: each directive compiles to an
alternation tried with backtracking, whitespace in the format matches a
non-empty whitespace run, matching is case-insensitive and must consume
the whole input, and the matched numbers are then validated by the
`datetime` constructor (day within month, year within 1..9999). -/

structure Date where
  day : Nat
  month : Nat
  year : Nat
deriving DecidableEq, Repr

/-- Tokens of a compiled `strptime`/`strftime` format string. -/
inductive Tok where
  | lit (c : Char)
  | ws
  | dd
  | mm
  | y4
  | y2
  | bAbbr
  | bFull
deriving DecidableEq, Repr

/-- Compile a format string into tokens (`%d`, `%m`, `%Y`, `%y`, `%b`, `%B`,
literal characters, whitespace). Literals are lower-cased because the
regex is compiled case-insensitively. -/
def compileFmt : List Char → List Tok
  | [] => []
  | '%' :: c :: rest =>
    (match c with
     | 'd' => [Tok.dd]
     | 'm' => [Tok.mm]
     | 'Y' => [Tok.y4]
     | 'y' => [Tok.y2]
     | 'b' => [Tok.bAbbr]
     | 'B' => [Tok.bFull]
     | _ => [Tok.lit (lowerChar c)]) ++ compileFmt rest
  | c :: rest =>
    (if isPySpace c then [Tok.ws] else [Tok.lit (lowerChar c)]) ++ compileFmt rest

/-- A run of whitespace in the format becomes a single `\s+`. -/
def collapseWs : List Tok → List Tok
  | [] => []
  | [t] => [t]
  | t1 :: t2 :: rest =>
    if t1 = Tok.ws ∧ t2 = Tok.ws then collapseWs (t2 :: rest)
    else t1 :: collapseWs (t2 :: rest)

def isDigitCh (c : Char) : Bool := '0' ≤ c ∧ c ≤ '9'

def digitVal (c : Char) : Nat := c.toNat - '0'.toNat

/-- Candidate matches of `%d` (regex `3[01]|[12]\d|0[1-9]|[1-9]`), in the
order the regex engine tries them; each candidate is (value, rest). -/
def dayCands : List Char → List (Nat × List Char)
  | c1 :: c2 :: rest =>
    (if c1 = '3' ∧ (c2 = '0' ∨ c2 = '1') then [(30 + digitVal c2, rest)] else []) ++
    (if (c1 = '1' ∨ c1 = '2') ∧ isDigitCh c2 then [(digitVal c1 * 10 + digitVal c2, rest)] else []) ++
    (if c1 = '0' ∧ '1' ≤ c2 ∧ c2 ≤ '9' then [(digitVal c2, rest)] else []) ++
    (if '1' ≤ c1 ∧ c1 ≤ '9' then [(digitVal c1, c2 :: rest)] else [])
  | [c1] => if '1' ≤ c1 ∧ c1 ≤ '9' then [(digitVal c1, [])] else []
  | [] => []

/-- Candidate matches of `%m` (regex `1[0-2]|0[1-9]|[1-9]`). -/
def monthCands : List Char → List (Nat × List Char)
  | c1 :: c2 :: rest =>
    (if c1 = '1' ∧ ('0' ≤ c2 ∧ c2 ≤ '2') then [(10 + digitVal c2, rest)] else []) ++
    (if c1 = '0' ∧ '1' ≤ c2 ∧ c2 ≤ '9' then [(digitVal c2, rest)] else []) ++
    (if '1' ≤ c1 ∧ c1 ≤ '9' then [(digitVal c1, c2 :: rest)] else [])
  | [c1] => if '1' ≤ c1 ∧ c1 ≤ '9' then [(digitVal c1, [])] else []
  | [] => []

/-- Candidate match of `%Y` (exactly four digits). -/
def y4Cands : List Char → List (Nat × List Char)
  | a :: b :: c :: d :: rest =>
    if isDigitCh a ∧ isDigitCh b ∧ isDigitCh c ∧ isDigitCh d then
      [(((digitVal a * 10 + digitVal b) * 10 + digitVal c) * 10 + digitVal d, rest)]
    else []
  | _ => []

/-- Candidate match of `%y` (exactly two digits, century rule 69). -/
def y2Cands : List Char → List (Nat × List Char)
  | a :: b :: rest =>
    if isDigitCh a ∧ isDigitCh b then
      let v := digitVal a * 10 + digitVal b
      [(if v ≤ 68 then 2000 + v else 1900 + v, rest)]
    else []
  | _ => []

def monthAbbrevsLower : List String :=
  ["jan", "feb", "mar", "apr", "may", "jun", "jul", "aug", "sep", "oct", "nov", "dec"]

def monthFullLower : List String :=
  ["january", "february", "march", "april", "may", "june",
   "july", "august", "september", "october", "november", "december"]

/-- Candidate matches of a month-name directive against (lower-cased) input:
each name that is a prefix of the input yields its month number. -/
def nameCands (i : Nat) : List String → List Char → List (Nat × List Char)
  | [], _ => []
  | n :: ns, cs =>
    (if n.data.isPrefixOf cs then [(i, cs.drop n.data.length)] else []) ++
    nameCands (i + 1) ns cs

/-- Candidate consumptions of `\s+`, greedy (longest first). -/
def wsCands (cs : List Char) : List (List Char) :=
  let k := (cs.takeWhile isPySpace).length
  (List.range k).map (fun j => cs.drop (k - j))

/-- Backtracking matcher for a compiled format against a lower-cased input.
Returns (day, month, year) with the `strptime` defaults (1, 1, 1900) for
directives the format does not contain; fails unless the whole input is
consumed. -/
def matchToks : List Tok → List Char → Option Nat → Option Nat → Option Nat →
    Option (Nat × Nat × Nat)
  | [], cs, od, om, oy =>
    if cs.isEmpty then some (od.getD 1, om.getD 1, oy.getD 1900) else none
  | Tok.lit ch :: ts, cs, od, om, oy =>
    match cs with
    | c :: cs' => if c = ch then matchToks ts cs' od om oy else none
    | [] => none
  | Tok.ws :: ts, cs, od, om, oy =>
    (wsCands cs).findSome? (fun cs' => matchToks ts cs' od om oy)
  | Tok.dd :: ts, cs, _, om, oy =>
    (dayCands cs).findSome? (fun p => matchToks ts p.2 (some p.1) om oy)
  | Tok.mm :: ts, cs, od, _, oy =>
    (monthCands cs).findSome? (fun p => matchToks ts p.2 od (some p.1) oy)
  | Tok.y4 :: ts, cs, od, om, _ =>
    (y4Cands cs).findSome? (fun p => matchToks ts p.2 od om (some p.1))
  | Tok.y2 :: ts, cs, od, om, _ =>
    (y2Cands cs).findSome? (fun p => matchToks ts p.2 od om (some p.1))
  | Tok.bAbbr :: ts, cs, od, _, oy =>
    (nameCands 1 monthAbbrevsLower cs).findSome? (fun p => matchToks ts p.2 od (some p.1) oy)
  | Tok.bFull :: ts, cs, od, _, oy =>
    (nameCands 1 monthFullLower cs).findSome? (fun p => matchToks ts p.2 od (some p.1) oy)

def isLeapYear (y : Nat) : Bool := y % 4 = 0 ∧ (y % 100 ≠ 0 ∨ y % 400 = 0)

def daysInMonth (y m : Nat) : Nat :=
  if m = 2 then (if isLeapYear y then 29 else 28)
  else if m = 4 ∨ m = 6 ∨ m = 9 ∨ m = 11 then 30
  else 31

/-- `datetime.strptime(s, fmt)` restricted to the directives the source's
format list uses, returning the parsed calendar date or `none` on any
`ValueError` (no regex match, or invalid calendar date). -/
def strptime (fmt : String) (s : String) : Option Date :=
  match matchToks (collapseWs (compileFmt fmt.data)) (s.data.map lowerChar) none none none with
  | none => none
  | some (d, m, y) =>
    if 1 ≤ y ∧ y ≤ 9999 ∧ 1 ≤ m ∧ m ≤ 12 ∧ 1 ≤ d ∧ d ≤ daysInMonth y m then
      some ⟨d, m, y⟩
    else none

def pad2 (n : Nat) : String := if n < 10 then "0" ++ toString n else toString n

def pad4 (n : Nat) : String :=
  if n < 10 then "000" ++ toString n
  else if n < 100 then "00" ++ toString n
  else if n < 1000 then "0" ++ toString n
  else toString n

/-- `date_obj.strftime('%d/%m/%Y')`. -/
def fmtDate (dt : Date) : String := pad2 dt.day ++ "/" ++ pad2 dt.month ++ "/" ++ pad4 dt.year

def monthAbbrevsCap : List String :=
  ["Jan", "Feb", "Mar", "Apr", "May", "Jun", "Jul", "Aug", "Sep", "Oct", "Nov", "Dec"]

def monthFullCap : List String :=
  ["January", "February", "March", "April", "May", "June",
   "July", "August", "September", "October", "November", "December"]

/-- `d.strftime(fmt)` for the directives in the source's format list:
renders a date in a given pattern (used to state round-trip properties). -/
def renderToks : List Char → Date → List Char
  | [], _ => []
  | '%' :: c :: rest, dt =>
    (match c with
     | 'd' => (pad2 dt.day).data
     | 'm' => (pad2 dt.month).data
     | 'Y' => (pad4 dt.year).data
     | 'y' => (pad2 (dt.year % 100)).data
     | 'b' => ((monthAbbrevsCap.getD (dt.month - 1) "").data)
     | 'B' => ((monthFullCap.getD (dt.month - 1) "").data)
     | _ => ['%', c]) ++ renderToks rest dt
  | c :: rest, dt => c :: renderToks rest dt

def renderFmt (fmt : String) (dt : Date) : String := ⟨renderToks fmt.data dt⟩

/-! ### The date normalizer (`format_and_validate_date`) -/

/-- The fixed ordered list of candidate formats, exactly as in the source. -/
def possible_formats : List String :=
  ["%d/%m/%Y", "%d-%m-%Y", "%Y-%m-%d", "%m/%d/%Y",
   "%d %b %Y", "%d %B %Y", "%Y/%m/%d", "%d-%b-%y",
   "%m-%d-%Y", "%B %d, %Y"]

/-- `format_and_validate_date`: empty/whitespace-only input yields `""`;
otherwise the first format that parses wins and the date is re-rendered as
`dd/mm/yyyy`; if none parses, `""` (a warning is logged, nothing raised). -/
def format_and_validate_date (date_string : String) : String :=
  if pyStrip date_string = "" then ""
  else
    match possible_formats.findSome? (fun fmt => (strptime fmt date_string).map fmtDate) with
    | some out => out
    | none => ""

/-! ### JSON-like values and the schema registry -/

/-- A decoded JSON value, as produced by the stdlib JSON decoder from the
inference service's textual reply. -/
inductive Value where
  | null
  | bool (b : Bool)
  | num (n : Int)
  | str (s : String)
  | list (l : List Value)
  | obj (fields : List (String × Value))

/-- Python truthiness (`if value:`) of a decoded value. -/
def truthy : Value → Bool
  | Value.null => false
  | Value.bool b => b
  | Value.num n => n != 0
  | Value.str s => s != ""
  | Value.list l => !l.isEmpty
  | Value.obj fs => !fs.isEmpty

/-- A decoded JSON object: an insertion-ordered association list, as a
Python `dict` is. -/
def PageData : Type := List (String × Value)

/-- `dict` assignment `d[k] = v`: update in place if the key exists,
otherwise append. -/
def assocSet (l : List (String × Value)) (k : String) (v : Value) : List (String × Value) :=
  if l.any (fun p => p.1 == k) then l.map (fun p => if p.1 == k then (p.1, v) else p)
  else l ++ [(k, v)]

/-- The process-wide `SCHEMAS` constant: per category, the expected fields
with their empty defaults, in source order. -/
def SCHEMAS : List (String × PageData) :=
  [("medical_report",
    [("patient_name", Value.str ""), ("hospital_name", Value.str ""),
     ("report_date", Value.str ""), ("report_type", Value.str ""),
     ("clinical_findings", Value.str "")]),
   ("prescription",
    [("patient_name", Value.str ""), ("doctor_name", Value.str ""),
     ("clinic_name", Value.str ""), ("prescription_date", Value.str ""),
     ("diagnosis_notes", Value.str "")]),
   ("medical_bill",
    [("patient_name", Value.str ""), ("hospital_or_clinic_name", Value.str ""),
     ("bill_date", Value.str ""), ("bill_items", Value.list []),
     ("total_amount", Value.str "")])]

/-- The keys of a category's schema (empty for an unknown category). -/
def schemaKeys (doc_type : String) : List String :=
  ((List.lookup doc_type SCHEMAS).getD []).map Prod.fst

/-! ### Per-page extraction (`extract_data_with_gemini`)

The inference call, the image encoding, `response.text` and the stdlib
JSON decoding of the reply live outside the repository; they are modelled
as one oracle `decode : Img → Option PageData` — `some` is a reply that
decoded to a JSON object, `none` is any failure the `try` block catches
(service error, non-JSON reply, non-object JSON). -/

def date_fields_to_check : List String := ["report_date", "prescription_date", "bill_date"]

/-- `format_and_validate_date(value)` as applied to a decoded value: the
source first checks `isinstance(date_string, str)` and returns `""` for
anything that is not a string. -/
def fadVal : Value → String
  | Value.str s => format_and_validate_date s
  | _ => ""

/-- The date post-processing loop: every field among the three date fields
is replaced by its normalized form; all other fields are untouched. -/
def normDatesPage (pd : PageData) : PageData :=
  pd.map (fun kv =>
    if date_fields_to_check.contains kv.1 then (kv.1, Value.str (fadVal kv.2)) else kv)

/-- The per-page body of the extraction loop: a decoded reply is kept
(dates normalized); on any caught failure the category's default schema is
appended instead. -/
def gemini_page {Img : Type} (decode : Img → Option PageData) (schema : PageData)
    (img : Img) : PageData :=
  match decode img with
  | some pd => normDatesPage pd
  | none => schema

/-- `extract_data_with_gemini`: raises `ValueError` (modelled as `.error`)
when the document type is not registered, otherwise returns one record per
page image. -/
def extract_data_with_gemini {Img : Type} (decode : Img → Option PageData)
    (image_list : List Img) (doc_type : String) : Except String (List PageData) :=
  match List.lookup doc_type SCHEMAS with
  | none => Except.error "Invalid document type specified."
  | some schema => Except.ok (image_list.map (gemini_page decode schema))

/-! ### Stage 1: the `/extract-documents` pipeline (`extract_documents`)

External collaborators are oracles: `raster` is `convert_pdf_to_images`
(which returns `[]` on any rasterization failure), `openImage` is
`PIL.Image.open`, `decode` is the per-page inference-plus-JSON-decode
oracle described above. -/

/-- An uploaded file: its (werkzeug) filename and opaque content. -/
structure PyFile (β : Type) where
  filename : String
  content : β

/-- A `{"filename": ..., "pages": [...]}` element of a category's result list. -/
structure FileResult where
  filename : String
  pages : List PageData

/-- The extension dispatch of the upload loop: `.pdf` goes to the
rasterizer, `.png`/`.jpg`/`.jpeg` is opened as a single page, anything
else is skipped with a warning (`none`). -/
def fileImages {β Img : Type} (raster : β → List Img) (openImage : β → Img)
    (f : PyFile β) : Option (List Img) :=
  let lf := pyLower f.filename
  if strEndsWith lf ".pdf" then some (raster f.content)
  else if strEndsWith lf ".png" || strEndsWith lf ".jpg" || strEndsWith lf ".jpeg" then
    some [openImage f.content]
  else none

/-- The field-name to document-type mapping of the route, in source order. -/
def doc_type_map : List (String × String) :=
  [("medical_report_files", "medical_report"),
   ("prescription_files", "prescription"),
   ("medical_bill_files", "medical_bill")]

/-- The `results` dictionary as initialized by the route. -/
def initResults : List (String × List FileResult) :=
  [("medical_report", []), ("prescription", []), ("medical_bill", [])]

/-- `results[doc_type].append(fr)`. -/
def appendFR (results : List (String × List FileResult)) (doc_type : String)
    (fr : FileResult) : List (String × List FileResult) :=
  results.map (fun p => if p.1 == doc_type then (p.1, p.2 ++ [fr]) else p)

/-- The per-file body of the upload loop: dispatch on extension, skip when
no page images result, otherwise extract every page and append a
`FileResult`; an exception from extraction propagates (`.error`). -/
def stepFile {β Img : Type} (raster : β → List Img) (openImage : β → Img)
    (decode : Img → Option PageData) (doc_type : String)
    (results : List (String × List FileResult)) (f : PyFile β) :
    Except String (List (String × List FileResult)) :=
  match fileImages raster openImage f with
  | none => Except.ok results
  | some images =>
    if images.isEmpty then Except.ok results
    else
      (extract_data_with_gemini decode images doc_type).map
        (fun pages => appendFR results doc_type ⟨f.filename, pages⟩)

/-- The `/extract-documents` handler body inside its `try`: fold the three
categories in order, skipping a category with no uploads, folding its
files otherwise. `getFiles` is `request.files.getlist`. -/
def extract_documents {β Img : Type} (raster : β → List Img) (openImage : β → Img)
    (decode : Img → Option PageData) (getFiles : String → List (PyFile β)) :
    Except String (List (String × List FileResult)) :=
  doc_type_map.foldlM
    (fun results fieldDt =>
      let files := getFiles fieldDt.1
      if files.isEmpty then Except.ok results
      else files.foldlM (stepFile raster openImage decode fieldDt.2) results)
    initResults

/-- The HTTP-level outcome of `/extract-documents`: 200 with the results
dictionary, or 500 with a generic message when the `try` caught anything. -/
inductive ExtractResponse where
  | ok (results : List (String × List FileResult))
  | serverError (msg : String)

def extract_documents_route {β Img : Type} (raster : β → List Img) (openImage : β → Img)
    (decode : Img → Option PageData) (getFiles : String → List (PyFile β)) :
    ExtractResponse :=
  match extract_documents raster openImage decode getFiles with
  | Except.ok r => ExtractResponse.ok r
  | Except.error _ => ExtractResponse.serverError "An internal error occurred during document extraction."

/-! ### Stage 2: the `/adjudicate-claim` endpoint (`adjudicate_claim`)

The decoded request body is `Option Payload` (`none` models
`request.get_json()` yielding nothing decodable); the inference service is
an oracle receiving the three summaries the prompt embeds, and the stdlib
JSON decoding of its reply is the oracle `loads`. -/

/-- The decoded request payload: the ExtractionResults-shaped JSON object. -/
def Payload : Type := List (String × List FileResult)

/-- A category summary: a flat insertion-ordered dictionary. -/
def Summary : Type := List (String × Value)

/-- The inner `summarize_category`: `{}` for an empty list, otherwise a
fold over the FIRST FileResult's pages where only truthy values are
written. -/
def summarize_category (category_data : List FileResult) : Summary :=
  match category_data with
  | [] => []
  | fr :: _ =>
    fr.pages.foldl
      (fun summary page =>
        page.foldl (fun s kv => if truthy kv.2 then assocSet s kv.1 kv.2 else s) summary)
      []

def reportSummaryOf (ed : Payload) : Summary :=
  summarize_category ((List.lookup "medical_report" ed).getD [])

def prescriptionSummaryOf (ed : Payload) : Summary :=
  summarize_category ((List.lookup "prescription" ed).getD [])

def billSummaryOf (ed : Payload) : Summary :=
  summarize_category ((List.lookup "medical_bill" ed).getD [])

/-- `response.text.strip().replace("```json", "").replace("```", "")`. -/
def fenceClean (t : String) : String :=
  pyReplace (pyReplace (pyStrip t) "```json" "") "```" ""

/-- The HTTP-level outcome of `/adjudicate-claim`. -/
inductive AdjResponse where
  | ok (v : Value)
  | clientError (msg : String)
  | serverError (msg : String)

/-- The `/adjudicate-claim` handler: 400 on a falsy payload; otherwise
summarize the three categories, invoke the inference service once, strip
fences, JSON-decode, and return the decoded value; any failure in the
`try` yields 500 with no partial verdict. -/
def adjudicate_claim (modelReply : Summary → Summary → Summary → Option String)
    (loads : String → Option Value) (payload : Option Payload) : AdjResponse :=
  match payload with
  | none => AdjResponse.clientError "No extracted data provided."
  | some ed =>
    if ed.isEmpty then AdjResponse.clientError "No extracted data provided."
    else
      match modelReply (reportSummaryOf ed) (prescriptionSummaryOf ed) (billSummaryOf ed) with
      | none => AdjResponse.serverError "An internal error occurred during claim adjudication."
      | some text =>
        match loads (fenceClean text) with
        | none => AdjResponse.serverError "An internal error occurred during claim adjudication."
        | some v => AdjResponse.ok v

/-- Modelled from the spec: the fixed `AdjudicationVerdict` shape (an
object with the `claimValidation` and `finalAssessment` members); used
only to compare the code's behavior with the spec's wording — the code
itself contains no such shape check. -/
def specVerdictShaped : Value → Bool
  | Value.obj fs =>
    (fs.any (fun p => p.1 == "claimValidation")) && (fs.any (fun p => p.1 == "finalAssessment"))
  | _ => false

/-! ### Proof-support definitions -/

/-- The category schema under a given name (empty for an unknown one). -/
def schemaOf (doc_type : String) : PageData := (List.lookup doc_type SCHEMAS).getD []

/-- The pure value that `stepFile` computes for a registered category
(where extraction cannot raise). -/
def stepFileP {β Img : Type} (raster : β → List Img) (openImage : β → Img)
    (decode : Img → Option PageData) (doc_type : String) (schema : PageData)
    (results : List (String × List FileResult)) (f : PyFile β) :
    List (String × List FileResult) :=
  match fileImages raster openImage f with
  | none => results
  | some images =>
    if images.isEmpty then results
    else appendFR results doc_type ⟨f.filename, images.map (gemini_page decode schema)⟩

/-- The pure value `extract_documents` computes (it can never raise, since
every document type it passes to extraction is registered). -/
def edP {β Img : Type} (raster : β → List Img) (openImage : β → Img)
    (decode : Img → Option PageData) (getFiles : String → List (PyFile β)) :
    List (String × List FileResult) :=
  doc_type_map.foldl
    (fun results fieldDt =>
      let files := getFiles fieldDt.1
      if files.isEmpty then results
      else files.foldl (stepFileP raster openImage decode fieldDt.2 (schemaOf fieldDt.2)) results)
    initResults

/-- Concrete decode oracles used in witnesses and counterexamples. -/
def c1Decode : Unit → Option PageData := fun _ => some [("patient_name", Value.str "John Doe")]

def c1DecodeCe : Unit → Option PageData := fun _ => some [("patient_name", Value.str "Jane Roe")]

def c2Decode : Unit → Option PageData := fun _ => none

def c2DecodeCe : Unit → Option PageData := fun _ => none

def c8Loads : String → Option Value :=
  fun s => if s == "[]" then some (Value.list []) else none

end AppIns

namespace AppIns

/-! ### Small general helpers and pipeline lemmas -/

theorem exceptBind_ok {ε α β : Type} (x : α) (f : α → Except ε β) :
    (Except.ok x >>= f) = f x := rfl

theorem lookup_cons {α β : Type} [BEq α] (k a : α) (v : β) (l : List (α × β)) :
    List.lookup k ((a, v) :: l) = if k == a then some v else List.lookup k l := by
  cases hk : k == a <;> simp [List.lookup, hk]

theorem appendFR_keys (results : List (String × List FileResult)) (dt : String)
    (fr : FileResult) :
    (appendFR results dt fr).map Prod.fst = results.map Prod.fst := by
  induction results with
  | nil => rfl
  | cons p rest ih =>
    obtain ⟨a, b⟩ := p
    show ((if a == dt then (a, b ++ [fr]) else (a, b)) :: appendFR rest dt fr).map Prod.fst
        = a :: rest.map Prod.fst
    rw [List.map_cons, ih]
    by_cases ha : a == dt <;> simp [ha]

theorem appendFR_lookup_ne (results : List (String × List FileResult)) (dt k : String)
    (fr : FileResult) (h : k ≠ dt) :
    List.lookup k (appendFR results dt fr) = List.lookup k results := by
  induction results with
  | nil => rfl
  | cons p rest ih =>
    obtain ⟨a, b⟩ := p
    show List.lookup k ((if a == dt then (a, b ++ [fr]) else (a, b)) :: appendFR rest dt fr)
        = List.lookup k ((a, b) :: rest)
    by_cases ha : a == dt
    · have ha' : a = dt := by simpa using ha
      have hk : (k == a) = false := by simp [ha', h]
      rw [if_pos ha, lookup_cons, lookup_cons, hk]
      simpa using ih
    · rw [if_neg ha, lookup_cons, lookup_cons]
      cases hk : k == a <;> simp [hk, ih]

theorem appendFR_good (results : List (String × List FileResult)) (dt : String)
    (fr : FileResult)
    (hres : ∀ p ∈ results, ∀ g ∈ p.2, g.pages ≠ [])
    (hfr : fr.pages ≠ []) :
    ∀ p ∈ appendFR results dt fr, ∀ g ∈ p.2, g.pages ≠ [] := by
  intro p hp g hg
  obtain ⟨q, hq, rfl⟩ := List.mem_map.mp hp
  by_cases hqd : q.1 == dt
  · rcases (by simpa [hqd] using hg : g ∈ q.2 ∨ g = fr) with h1 | h2
    · exact hres q hq g h1
    · subst h2
      exact hfr
  · exact hres q hq g (by simpa [hqd] using hg)

theorem stepFileP_keys {β Img : Type} (raster : β → List Img) (openImage : β → Img)
    (decode : Img → Option PageData) (dt : String) (schema : PageData)
    (results : List (String × List FileResult)) (f : PyFile β) :
    (stepFileP raster openImage decode dt schema results f).map Prod.fst
      = results.map Prod.fst := by
  unfold stepFileP
  cases hfi : fileImages raster openImage f with
  | none => rfl
  | some images =>
    by_cases he : images.isEmpty <;> simp [he, appendFR_keys]

theorem stepFileP_lookup_ne {β Img : Type} (raster : β → List Img) (openImage : β → Img)
    (decode : Img → Option PageData) (dt k : String) (schema : PageData)
    (results : List (String × List FileResult)) (f : PyFile β) (h : k ≠ dt) :
    List.lookup k (stepFileP raster openImage decode dt schema results f)
      = List.lookup k results := by
  unfold stepFileP
  cases hfi : fileImages raster openImage f with
  | none => rfl
  | some images =>
    by_cases he : images.isEmpty <;> simp [he, appendFR_lookup_ne _ _ _ _ h]

theorem stepFileP_good {β Img : Type} (raster : β → List Img) (openImage : β → Img)
    (decode : Img → Option PageData) (dt : String) (schema : PageData)
    (results : List (String × List FileResult)) (f : PyFile β)
    (hres : ∀ p ∈ results, ∀ g ∈ p.2, g.pages ≠ []) :
    ∀ p ∈ stepFileP raster openImage decode dt schema results f, ∀ g ∈ p.2, g.pages ≠ [] := by
  unfold stepFileP
  cases hfi : fileImages raster openImage f with
  | none => exact hres
  | some images =>
    by_cases he : images.isEmpty
    · simpa [he] using hres
    · have himg : images ≠ [] := by simpa [List.isEmpty_eq_false] using he
      have hpages : images.map (gemini_page decode schema) ≠ [] := by
        simpa using himg
      simpa [he] using appendFR_good results dt _ hres hpages

theorem foldl_stepFileP_keys {β Img : Type} (raster : β → List Img) (openImage : β → Img)
    (decode : Img → Option PageData) (dt : String) (schema : PageData) :
    ∀ (files : List (PyFile β)) (results : List (String × List FileResult)),
      (files.foldl (stepFileP raster openImage decode dt schema) results).map Prod.fst
        = results.map Prod.fst := by
  intro files
  induction files with
  | nil => intro results; rfl
  | cons f fs ih =>
    intro results
    rw [List.foldl_cons, ih, stepFileP_keys]

theorem foldl_stepFileP_lookup_ne {β Img : Type} (raster : β → List Img) (openImage : β → Img)
    (decode : Img → Option PageData) (dt k : String) (schema : PageData) (h : k ≠ dt) :
    ∀ (files : List (PyFile β)) (results : List (String × List FileResult)),
      List.lookup k (files.foldl (stepFileP raster openImage decode dt schema) results)
        = List.lookup k results := by
  intro files
  induction files with
  | nil => intro results; rfl
  | cons f fs ih =>
    intro results
    rw [List.foldl_cons, ih, stepFileP_lookup_ne _ _ _ _ _ _ _ _ h]

theorem foldl_stepFileP_good {β Img : Type} (raster : β → List Img) (openImage : β → Img)
    (decode : Img → Option PageData) (dt : String) (schema : PageData) :
    ∀ (files : List (PyFile β)) (results : List (String × List FileResult)),
      (∀ p ∈ results, ∀ g ∈ p.2, g.pages ≠ []) →
      ∀ p ∈ files.foldl (stepFileP raster openImage decode dt schema) results,
        ∀ g ∈ p.2, g.pages ≠ [] := by
  intro files
  induction files with
  | nil => intro results h; exact h
  | cons f fs ih =>
    intro results h
    rw [List.foldl_cons]
    exact ih _ (stepFileP_good _ _ _ _ _ _ _ h)

theorem stepFile_eq {β Img : Type} (raster : β → List Img) (openImage : β → Img)
    (decode : Img → Option PageData) (dt : String) (schema : PageData)
    (results : List (String × List FileResult)) (f : PyFile β)
    (h : List.lookup dt SCHEMAS = some schema) :
    stepFile raster openImage decode dt results f
      = Except.ok (stepFileP raster openImage decode dt schema results f) := by
  unfold stepFile stepFileP
  cases hfi : fileImages raster openImage f with
  | none => rfl
  | some images =>
    by_cases he : images.isEmpty
    · simp [he]
    · simp [he, extract_data_with_gemini, h, Except.map]

theorem foldlM_stepFile {β Img : Type} (raster : β → List Img) (openImage : β → Img)
    (decode : Img → Option PageData) (dt : String) (schema : PageData)
    (h : List.lookup dt SCHEMAS = some schema) :
    ∀ (files : List (PyFile β)) (results : List (String × List FileResult)),
      files.foldlM (stepFile raster openImage decode dt) results
        = Except.ok (files.foldl (stepFileP raster openImage decode dt schema) results) := by
  intro files
  induction files with
  | nil => intro results; rfl
  | cons f fs ih =>
    intro results
    rw [List.foldlM_cons, stepFile_eq _ _ _ _ _ _ _ h, exceptBind_ok, ih, List.foldl_cons]

theorem catStep_eq {β Img : Type} (raster : β → List Img) (openImage : β → Img)
    (decode : Img → Option PageData) (dt : String) (schema : PageData)
    (files : List (PyFile β)) (results : List (String × List FileResult))
    (h : List.lookup dt SCHEMAS = some schema) :
    (if files.isEmpty then Except.ok results
     else files.foldlM (stepFile raster openImage decode dt) results)
    = Except.ok (if files.isEmpty then results
                 else files.foldl (stepFileP raster openImage decode dt schema) results) := by
  by_cases he : files.isEmpty <;> simp [he, foldlM_stepFile raster openImage decode dt schema h]

theorem extract_documents_eq {β Img : Type} (raster : β → List Img) (openImage : β → Img)
    (decode : Img → Option PageData) (getFiles : String → List (PyFile β)) :
    extract_documents raster openImage decode getFiles
      = Except.ok (edP raster openImage decode getFiles) := by
  unfold extract_documents edP
  simp only [doc_type_map, List.foldlM_cons, List.foldlM_nil, List.foldl_cons, List.foldl_nil]
  rw [catStep_eq raster openImage decode "medical_report" (schemaOf "medical_report") _ _ rfl,
    exceptBind_ok]
  rw [catStep_eq raster openImage decode "prescription" (schemaOf "prescription") _ _ rfl,
    exceptBind_ok]
  rw [catStep_eq raster openImage decode "medical_bill" (schemaOf "medical_bill") _ _ rfl,
    exceptBind_ok]
  rfl

theorem catP_keys {β Img : Type} (raster : β → List Img) (openImage : β → Img)
    (decode : Img → Option PageData) (dt : String) (schema : PageData)
    (files : List (PyFile β)) (results : List (String × List FileResult)) :
    (if files.isEmpty then results
     else files.foldl (stepFileP raster openImage decode dt schema) results).map Prod.fst
      = results.map Prod.fst := by
  by_cases he : files.isEmpty <;> simp [he, foldl_stepFileP_keys]

theorem catP_lookup_ne {β Img : Type} (raster : β → List Img) (openImage : β → Img)
    (decode : Img → Option PageData) (dt k : String) (schema : PageData)
    (files : List (PyFile β)) (results : List (String × List FileResult)) (h : k ≠ dt) :
    List.lookup k
      (if files.isEmpty then results
       else files.foldl (stepFileP raster openImage decode dt schema) results)
      = List.lookup k results := by
  by_cases he : files.isEmpty <;>
    simp [he, foldl_stepFileP_lookup_ne raster openImage decode dt k schema h]

theorem catP_good {β Img : Type} (raster : β → List Img) (openImage : β → Img)
    (decode : Img → Option PageData) (dt : String) (schema : PageData)
    (files : List (PyFile β)) (results : List (String × List FileResult))
    (h : ∀ p ∈ results, ∀ g ∈ p.2, g.pages ≠ []) :
    ∀ p ∈ (if files.isEmpty then results
           else files.foldl (stepFileP raster openImage decode dt schema) results),
      ∀ g ∈ p.2, g.pages ≠ [] := by
  by_cases he : files.isEmpty
  · simpa [he] using h
  · simpa [he] using foldl_stepFileP_good raster openImage decode dt schema files results h

theorem initResults_good : ∀ p ∈ initResults, ∀ g ∈ p.2, g.pages ≠ [] := by
  intro p hp g hg
  rcases (by simpa [initResults] using hp :
      p = ("medical_report", ([] : List FileResult))
      ∨ p = ("prescription", ([] : List FileResult))
      ∨ p = ("medical_bill", ([] : List FileResult))) with rfl | rfl | rfl <;>
    exact absurd hg (List.not_mem_nil g)

theorem edP_good {β Img : Type} (raster : β → List Img) (openImage : β → Img)
    (decode : Img → Option PageData) (getFiles : String → List (PyFile β)) :
    ∀ p ∈ edP raster openImage decode getFiles, ∀ fr ∈ p.2, fr.pages ≠ [] := by
  unfold edP
  simp only [doc_type_map, List.foldl_cons, List.foldl_nil]
  exact catP_good _ _ _ _ _ _ _
    (catP_good _ _ _ _ _ _ _
      (catP_good _ _ _ _ _ _ _ initResults_good))

theorem edP_keys {β Img : Type} (raster : β → List Img) (openImage : β → Img)
    (decode : Img → Option PageData) (getFiles : String → List (PyFile β)) :
    (edP raster openImage decode getFiles).map Prod.fst
      = ["medical_report", "prescription", "medical_bill"] := by
  unfold edP
  simp only [doc_type_map, List.foldl_cons, List.foldl_nil]
  rw [catP_keys, catP_keys, catP_keys]
  rfl

theorem edP_lookup_mr {β Img : Type} (raster : β → List Img) (openImage : β → Img)
    (decode : Img → Option PageData) (getFiles : String → List (PyFile β))
    (h : getFiles "medical_report_files" = []) :
    List.lookup "medical_report" (edP raster openImage decode getFiles) = some [] := by
  unfold edP
  simp only [doc_type_map, List.foldl_cons, List.foldl_nil]
  rw [catP_lookup_ne _ _ _ _ _ _ _ _ (by decide),
    catP_lookup_ne _ _ _ _ _ _ _ _ (by decide)]
  simp [h, initResults]

theorem edP_lookup_pr {β Img : Type} (raster : β → List Img) (openImage : β → Img)
    (decode : Img → Option PageData) (getFiles : String → List (PyFile β))
    (h : getFiles "prescription_files" = []) :
    List.lookup "prescription" (edP raster openImage decode getFiles) = some [] := by
  unfold edP
  simp only [doc_type_map, List.foldl_cons, List.foldl_nil]
  rw [catP_lookup_ne _ _ _ _ _ _ _ _ (by decide)]
  simp only [h, List.isEmpty_nil, if_true]
  rw [catP_lookup_ne _ _ _ _ _ _ _ _ (by decide)]
  rfl

theorem edP_lookup_mb {β Img : Type} (raster : β → List Img) (openImage : β → Img)
    (decode : Img → Option PageData) (getFiles : String → List (PyFile β))
    (h : getFiles "medical_bill_files" = []) :
    List.lookup "medical_bill" (edP raster openImage decode getFiles) = some [] := by
  unfold edP
  simp only [doc_type_map, List.foldl_cons, List.foldl_nil]
  simp only [h, List.isEmpty_nil, if_true]
  rw [catP_lookup_ne _ _ _ _ _ _ _ _ (by decide),
    catP_lookup_ne _ _ _ _ _ _ _ _ (by decide)]
  rfl

end AppIns

namespace AppIns

/-! ## Claim theorems -/

/-- Claim C5: every format pattern in the normalizer's fixed ordered list
round-trips a representative date (15 March 2023) to `dd/mm/yyyy`, and the
ambiguous string "01/02/2023" resolves by the first-listed pattern: the
day-first pattern parses it as 1 February 2023 (so the result is
"01/02/2023"), while the later US-order pattern would have parsed it as
2 January 2023; the day-first pattern indeed precedes the US-order one. -/
theorem c5_roundtrip_and_first_pattern_wins :
    (possible_formats.all
      (fun fmt => format_and_validate_date (renderFmt fmt ⟨15, 3, 2023⟩) == fmtDate ⟨15, 3, 2023⟩))
      = true
    ∧ format_and_validate_date "01/02/2023" = fmtDate ⟨1, 2, 2023⟩
    ∧ strptime "%d/%m/%Y" "01/02/2023" = some ⟨1, 2, 2023⟩
    ∧ strptime "%m/%d/%Y" "01/02/2023" = some ⟨2, 1, 2023⟩
    ∧ fmtDate ⟨2, 1, 2023⟩ ≠ fmtDate ⟨1, 2, 2023⟩
    ∧ possible_formats.indexOf "%d/%m/%Y" < possible_formats.indexOf "%m/%d/%Y" :=
  ⟨by decide, by decide, by decide, by decide, by decide, by decide⟩

/-- Claim C6: the date normalizer is a total function over strings and
returns the empty string on empty, whitespace-only, or unparseable input:
concretely on `""`, `"   "` and `"not a date"`, and in general whenever
the stripped input is empty or no candidate format parses the input. -/
theorem c6_normalizer_total_and_empty_on_failure :
    format_and_validate_date "" = ""
    ∧ format_and_validate_date "   " = ""
    ∧ format_and_validate_date "not a date" = ""
    ∧ (∀ s, pyStrip s = "" → format_and_validate_date s = "")
    ∧ (∀ s, (∀ fmt ∈ possible_formats, strptime fmt s = none) →
        format_and_validate_date s = "") := by
  refine ⟨by decide, by decide, by decide, fun s h => ?_, fun s h => ?_⟩
  · simp [format_and_validate_date, h]
  · unfold format_and_validate_date
    have hnone : possible_formats.findSome? (fun fmt => (strptime fmt s).map fmtDate) = none := by
      rw [List.findSome?_eq_none_iff]
      intro fmt hfmt
      rw [h fmt hfmt]
      rfl
    rw [hnone]
    split <;> rfl

/-- Witness for C6 at concrete inputs: a whitespace-only string and a
string no format parses both normalize to the empty string. -/
theorem c6_witness :
    format_and_validate_date " \t " = "" ∧ format_and_validate_date "13/13/2023" = "" :=
  ⟨c6_normalizer_total_and_empty_on_failure.2.2.2.1 " \t " (by decide),
   c6_normalizer_total_and_empty_on_failure.2.2.2.2 "13/13/2023" (by decide)⟩

/-- Claim C3: the summary of a non-empty sequence of FileResults depends
only on the first FileResult; within its pages, a key is written only when
its value is truthy, so later non-empty values overwrite earlier ones and
empty values never overwrite; the spec's example pages produce the
dictionary with "a" bound to "y" and "b" bound to "x"; the empty sequence
summarizes to the empty dictionary. -/
theorem c3_summarize_first_file_last_nonempty_wins :
    (∀ (fr : FileResult) (rest : List FileResult),
      summarize_category (fr :: rest) = summarize_category [fr])
    ∧ summarize_category
        [⟨"f", [[("a", Value.str ""), ("b", Value.str "x")],
                [("a", Value.str "y"), ("b", Value.str "")]]⟩]
      = [("b", Value.str "x"), ("a", Value.str "y")]
    ∧ List.lookup "a"
        (summarize_category
          [⟨"f", [[("a", Value.str ""), ("b", Value.str "x")],
                  [("a", Value.str "y"), ("b", Value.str "")]]⟩]) = some (Value.str "y")
    ∧ List.lookup "b"
        (summarize_category
          [⟨"f", [[("a", Value.str ""), ("b", Value.str "x")],
                  [("a", Value.str "y"), ("b", Value.str "")]]⟩]) = some (Value.str "x")
    ∧ summarize_category [] = [] :=
  ⟨fun _ _ => rfl, rfl, rfl, rfl, rfl⟩

/-- Claim C4 (amended): the adjudication endpoint returns the
"No extracted data provided." client error exactly when the decoded
payload is absent or an empty mapping; in particular a payload binding all
three categories to explicit empty lists is a non-empty mapping and
proceeds to an adjudication attempt. -/
theorem c4_client_error_iff_falsy_payload :
    ∀ (modelReply : Summary → Summary → Summary → Option String)
      (loads : String → Option Value) (payload : Option Payload),
      adjudicate_claim modelReply loads payload
        = AdjResponse.clientError "No extracted data provided."
      ↔ (payload = none ∨ payload = some []) := by
  intro modelReply loads payload
  cases payload with
  | none => simp [adjudicate_claim]
  | some ed =>
    by_cases hed : ed.isEmpty
    · have hnil : ed = [] := List.isEmpty_iff.mp hed
      subst hnil
      simp [adjudicate_claim]
    · have hne : ed ≠ [] := by simpa [List.isEmpty_iff] using hed
      simp only [adjudicate_claim, if_neg hed]
      cases hmr : modelReply (reportSummaryOf ed) (prescriptionSummaryOf ed) (billSummaryOf ed) with
      | none => simp [hne]
      | some t =>
        cases hl : loads (fenceClean t) with
        | none => simp [hl, hne]
        | some v => simp [hl, hne]

/-- Counterexample for C4 as frozen: the payload that is "empty for all
three categories" (each category key bound to an empty list) does NOT
yield the client error — the handler proceeds to an adjudication attempt
(here surfacing the inference failure as a server error instead). -/
theorem c4_counterexample :
    adjudicate_claim (fun _ _ _ => none) (fun _ => none)
        (some [("medical_report", []), ("prescription", []), ("medical_bill", [])])
      = AdjResponse.serverError "An internal error occurred during claim adjudication."
    ∧ adjudicate_claim (fun _ _ _ => none) (fun _ => none)
        (some [("medical_report", []), ("prescription", []), ("medical_bill", [])])
      ≠ AdjResponse.clientError "No extracted data provided." :=
  ⟨rfl, fun h => AdjResponse.noConfusion h⟩

/-- Claim C1 (amended): for a page whose reply decodes successfully, the
produced PageRecord is exactly the decoded reply with the three date
fields normalized — its key set equals the reply's key set, so unknown
keys are kept unvalidated, but schema keys missing from the reply are NOT
backfilled with defaults (the all-default schema appears only when
decoding fails). -/
theorem c1_page_record_mirrors_decoded_reply :
    (∀ (Img : Type) (decode : Img → Option PageData) (img : Img) (doc_type : String)
       (schema pd : PageData),
       List.lookup doc_type SCHEMAS = some schema → decode img = some pd →
       extract_data_with_gemini decode [img] doc_type = Except.ok [normDatesPage pd])
    ∧ (∀ pd : PageData, (normDatesPage pd).map Prod.fst = pd.map Prod.fst) := by
  constructor
  · intro Img decode img doc_type schema pd hs hd
    simp [extract_data_with_gemini, hs, gemini_page, hd]
  · intro pd
    induction pd with
    | nil => rfl
    | cons kv rest ih =>
      show ((if date_fields_to_check.contains kv.1 then (kv.1, Value.str (fadVal kv.2)) else kv) ::
            normDatesPage rest).map Prod.fst = kv.1 :: rest.map Prod.fst
      rw [List.map_cons, ih]
      have hfst : (if date_fields_to_check.contains kv.1
          then (kv.1, Value.str (fadVal kv.2)) else kv).1 = kv.1 := by
        split <;> rfl
      rw [hfst]


/-- Witness for C1's theorem: a reply containing only `patient_name`
yields a one-key PageRecord. -/
theorem c1_witness :
    extract_data_with_gemini c1Decode [()] "medical_report"
      = Except.ok [normDatesPage [("patient_name", Value.str "John Doe")]]
    ∧ (normDatesPage [("patient_name", Value.str "John Doe")]).map Prod.fst
      = [("patient_name", Value.str "John Doe")].map Prod.fst :=
  ⟨c1_page_record_mirrors_decoded_reply.1 Unit c1Decode () "medical_report" _ _ rfl rfl,
   c1_page_record_mirrors_decoded_reply.2 [("patient_name", Value.str "John Doe")]⟩


/-- Counterexample for C1 as frozen: with a decoded reply that omits
`hospital_name`, the produced PageRecord also omits it, although
`hospital_name` is a key of the medical_report schema — the invariant
"every schema key is present after extraction" fails. -/
theorem c1_counterexample :
    extract_data_with_gemini c1DecodeCe [()] "medical_report"
      = Except.ok [[("patient_name", Value.str "Jane Roe")]]
    ∧ "hospital_name" ∈ schemaKeys "medical_report"
    ∧ "hospital_name" ∉ ([("patient_name", Value.str "Jane Roe")] : PageData).map Prod.fst :=
  ⟨rfl, by decide, by decide⟩

/-- Claim C2 (amended): for a registered category, a page whose
inference-plus-decode fails degrades to the category's all-default
Schema and extraction succeeds for the batch; but an unregistered
category makes `extract_data_with_gemini` raise `ValueError` (modelled
`.error`), which propagates instead of degrading. -/
theorem c2_degrade_to_default_schema :
    (∀ (Img : Type) (decode : Img → Option PageData) (images : List Img)
       (doc_type : String) (schema : PageData),
       List.lookup doc_type SCHEMAS = some schema →
       (∀ i ∈ images, decode i = none) →
       extract_data_with_gemini decode images doc_type
         = Except.ok (images.map (fun _ => schema)))
    ∧ (∀ (Img : Type) (decode : Img → Option PageData) (images : List Img)
        (doc_type : String),
        List.lookup doc_type SCHEMAS = none →
        extract_data_with_gemini decode images doc_type
          = Except.error "Invalid document type specified.") := by
  constructor
  · intro Img decode images doc_type schema hs hall
    simp only [extract_data_with_gemini, hs]
    congr 1
    exact List.map_congr_left (fun i hi => by simp [gemini_page, hall i hi])
  · intro Img decode images doc_type hs
    simp [extract_data_with_gemini, hs]


/-- Witness for C2's theorem: a failing page for `prescription` yields the
prescription default schema; and the unregistered category "policy"
yields the ValueError. -/
theorem c2_witness :
    extract_data_with_gemini c2Decode [()] "prescription"
      = Except.ok [[("patient_name", Value.str ""), ("doctor_name", Value.str ""),
                    ("clinic_name", Value.str ""), ("prescription_date", Value.str ""),
                    ("diagnosis_notes", Value.str "")]]
    ∧ extract_data_with_gemini c2Decode [()] "policy"
      = Except.error "Invalid document type specified." :=
  ⟨c2_degrade_to_default_schema.1 Unit c2Decode [()] "prescription" _ rfl (fun _ _ => rfl),
   c2_degrade_to_default_schema.2 Unit c2Decode [()] "policy" rfl⟩


/-- Counterexample for C2 as frozen: for a category that is not one of the
three registered ones, extraction does not return the category's
all-default Schema — it raises (propagates an error), so such a request
aborts rather than degrading. -/
theorem c2_counterexample :
    extract_data_with_gemini c2DecodeCe [()] "insurance_policy"
      = Except.error "Invalid document type specified." := rfl

/-- Claim C8 (amended): for a non-empty payload, the adjudication endpoint
returns the generic server error exactly in the two failure cases — the
inference call fails, or JSON-decoding of the fence-stripped reply fails —
and returns the decoded value verbatim otherwise; there is no fallback or
partial verdict in the failure cases. -/
theorem c8_failure_is_server_error :
    ∀ (modelReply : Summary → Summary → Summary → Option String)
      (loads : String → Option Value) (ed : Payload), ed ≠ [] →
      (modelReply (reportSummaryOf ed) (prescriptionSummaryOf ed) (billSummaryOf ed) = none →
        adjudicate_claim modelReply loads (some ed)
          = AdjResponse.serverError "An internal error occurred during claim adjudication.")
      ∧ (∀ t, modelReply (reportSummaryOf ed) (prescriptionSummaryOf ed) (billSummaryOf ed)
            = some t →
          loads (fenceClean t) = none →
          adjudicate_claim modelReply loads (some ed)
            = AdjResponse.serverError "An internal error occurred during claim adjudication.")
      ∧ (∀ t v, modelReply (reportSummaryOf ed) (prescriptionSummaryOf ed) (billSummaryOf ed)
            = some t →
          loads (fenceClean t) = some v →
          adjudicate_claim modelReply loads (some ed) = AdjResponse.ok v) := by
  intro modelReply loads ed hne
  have hed : ed.isEmpty = false := by simpa [List.isEmpty_eq_false] using hne
  refine ⟨fun h => ?_, fun t ht hl => ?_, fun t v ht hl => ?_⟩
  · simp [adjudicate_claim, hed, h]
  · simp [adjudicate_claim, hed, ht, hl]
  · simp [adjudicate_claim, hed, ht, hl]

/-- Witness for C8's theorem: with one category uploaded and a failing
inference call, the endpoint returns the server error. -/
theorem c8_witness :
    adjudicate_claim (fun _ _ _ => none) (fun _ => none) (some [("medical_report", [])])
      = AdjResponse.serverError "An internal error occurred during claim adjudication." :=
  (c8_failure_is_server_error (fun _ _ _ => none) (fun _ => none) [("medical_report", [])]
    (List.cons_ne_nil _ _)).1 rfl


/-- Counterexample for C8 as frozen: a reply that is valid JSON but not of
the fixed verdict shape (the JSON array `[]`) is NOT turned into a server
error — the decoded value is returned verbatim with a 200, because the
code only JSON-decodes the reply and never validates the verdict shape. -/
theorem c8_counterexample :
    adjudicate_claim (fun _ _ _ => some "[]") c8Loads (some [("prescription", [])])
      = AdjResponse.ok (Value.list [])
    ∧ specVerdictShaped (Value.list []) = false :=
  ⟨rfl, rfl⟩

/-- Claim C7: a file whose page-image list comes out empty (a PDF whose
rasterization failed or yielded nothing) emits no FileResult — folding the
per-file step over a file list containing such a file equals folding over
the list without it — and consequently every FileResult in a successful
extraction result has a non-empty pages list. -/
theorem c7_zero_page_file_emits_nothing :
    ∀ (β Img : Type) (raster : β → List Img) (openImage : β → Img)
      (decode : Img → Option PageData),
      (∀ (getFiles : String → List (PyFile β)) (r : List (String × List FileResult)),
        extract_documents raster openImage decode getFiles = Except.ok r →
        (r.all (fun p => p.2.all (fun fr => !fr.pages.isEmpty))) = true)
      ∧ (∀ (doc_type : String) (results : List (String × List FileResult))
          (fs1 fs2 : List (PyFile β)) (f : PyFile β),
          strEndsWith (pyLower f.filename) ".pdf" = true →
          raster f.content = [] →
          List.foldlM (stepFile raster openImage decode doc_type) results (fs1 ++ f :: fs2)
            = List.foldlM (stepFile raster openImage decode doc_type) results (fs1 ++ fs2)) := by
  intro β Img raster openImage decode
  constructor
  · intro getFiles r hr
    rw [extract_documents_eq] at hr
    injection hr with hr
    subst hr
    rw [List.all_eq_true]
    intro p hp
    rw [List.all_eq_true]
    intro fr hfr
    simpa [List.isEmpty_eq_false] using edP_good raster openImage decode getFiles p hp fr hfr
  · intro dt results fs1 fs2 f hpdf hrast
    have hskip : ∀ res, stepFile raster openImage decode dt res f = Except.ok res := by
      intro res
      simp [stepFile, fileImages, hpdf, hrast]
    simp only [List.foldlM_append, List.foldlM_cons]
    congr 1
    funext res
    rw [hskip res, exceptBind_ok]

/-- Witness for C7's theorem: with a rasterizer that yields no pages, the
one-file fold equals the empty fold, and the extraction result for a
single zero-page PDF upload contains only FileResults with non-empty
pages (vacuously, there are none). -/
theorem c7_witness :
    ((edP (fun _ : Unit => ([] : List Unit)) (fun _ => ()) (fun _ => (none : Option PageData))
        (fun _ => [⟨"scan.pdf", ()⟩])).all
      (fun p => p.2.all (fun fr => !fr.pages.isEmpty))) = true
    ∧ List.foldlM
        (stepFile (fun _ : Unit => ([] : List Unit)) (fun _ => ()) (fun _ => (none : Option PageData))
          "medical_report") initResults [⟨"scan.pdf", ()⟩]
      = List.foldlM
        (stepFile (fun _ : Unit => ([] : List Unit)) (fun _ => ()) (fun _ => (none : Option PageData))
          "medical_report") initResults [] :=
  ⟨(c7_zero_page_file_emits_nothing Unit Unit _ _ _).1 (fun _ => [⟨"scan.pdf", ()⟩]) _
      (extract_documents_eq _ _ _ _),
   (c7_zero_page_file_emits_nothing Unit Unit _ _ _).2 "medical_report" initResults [] []
      ⟨"scan.pdf", ()⟩ rfl rfl⟩

/-- Claim C9: a file whose (lower-cased) name ends in none of `.pdf`,
`.png`, `.jpg`, `.jpeg` is skipped — the per-file step leaves the results
dictionary unchanged and raises nothing — and the request as a whole still
succeeds (extraction always returns a result, never an error). -/
theorem c9_unsupported_extension_skipped :
    ∀ (β Img : Type) (raster : β → List Img) (openImage : β → Img)
      (decode : Img → Option PageData),
      (∀ (doc_type : String) (results : List (String × List FileResult)) (f : PyFile β),
        strEndsWith (pyLower f.filename) ".pdf" = false →
        strEndsWith (pyLower f.filename) ".png" = false →
        strEndsWith (pyLower f.filename) ".jpg" = false →
        strEndsWith (pyLower f.filename) ".jpeg" = false →
        stepFile raster openImage decode doc_type results f = Except.ok results)
      ∧ (∀ getFiles : String → List (PyFile β),
          extract_documents raster openImage decode getFiles
            = Except.ok (edP raster openImage decode getFiles)) := by
  intro β Img raster openImage decode
  constructor
  · intro dt results f h1 h2 h3 h4
    simp [stepFile, fileImages, h1, h2, h3, h4]
  · intro getFiles
    exact extract_documents_eq raster openImage decode getFiles

/-- Witness for C9's theorem: a `.txt` upload leaves the results
dictionary untouched. -/
theorem c9_witness :
    stepFile (fun _ : Unit => ([] : List Unit)) (fun _ => ()) (fun _ => (none : Option PageData))
        "medical_report" initResults ⟨"notes.txt", ()⟩ = Except.ok initResults :=
  (c9_unsupported_extension_skipped Unit Unit _ _ _).1 "medical_report" initResults
    ⟨"notes.txt", ()⟩ rfl rfl rfl rfl

/-- Claim C10: extraction that completes returns a dictionary whose keys
are exactly medical_report, prescription and medical_bill in that order,
each bound to a (possibly empty) list of FileResults; a category with no
uploads keeps its initial empty list. -/
theorem c10_results_have_exactly_three_categories :
    ∀ (β Img : Type) (raster : β → List Img) (openImage : β → Img)
      (decode : Img → Option PageData) (getFiles : String → List (PyFile β)),
      extract_documents raster openImage decode getFiles
        = Except.ok (edP raster openImage decode getFiles)
      ∧ (edP raster openImage decode getFiles).map Prod.fst
        = ["medical_report", "prescription", "medical_bill"]
      ∧ (getFiles "medical_report_files" = [] →
          List.lookup "medical_report" (edP raster openImage decode getFiles) = some [])
      ∧ (getFiles "prescription_files" = [] →
          List.lookup "prescription" (edP raster openImage decode getFiles) = some [])
      ∧ (getFiles "medical_bill_files" = [] →
          List.lookup "medical_bill" (edP raster openImage decode getFiles) = some []) := by
  intro β Img raster openImage decode getFiles
  exact ⟨extract_documents_eq raster openImage decode getFiles,
    edP_keys raster openImage decode getFiles,
    edP_lookup_mr raster openImage decode getFiles,
    edP_lookup_pr raster openImage decode getFiles,
    edP_lookup_mb raster openImage decode getFiles⟩

/-- Witness for C10's theorem: with no uploads at all, the medical_report
category is present and bound to the empty list. -/
theorem c10_witness :
    List.lookup "medical_report"
        (edP (fun _ : Unit => ([] : List Unit)) (fun _ => ()) (fun _ => (none : Option PageData))
          (fun _ => ([] : List (PyFile Unit)))) = some [] :=
  (c10_results_have_exactly_three_categories Unit Unit
    (fun _ => ([] : List Unit)) (fun _ => ()) (fun _ => (none : Option PageData))
    (fun _ => ([] : List (PyFile Unit)))).2.2.1 rfl

end AppIns
